import Mathlib

/-!
A shallow Lean 4 embedding of the fetch-cache-normalize pipeline of
`scripts/venice_model_sync.py` (the Venice.ai model-catalog sync tool),
together with theorems settling the specification claims about it.

Modelling conventions:
* JSON-shaped Python values are modelled by `JValue`; Python dictionaries are
  association lists with unique keys (first-match lookup, in-place update).
* Python numbers (int and float alike, as produced by `json.load`) are
  modelled by `ℚ`; no claim depends on binary floating-point rounding.
* Code that can raise is modelled in `Except PyErr`; code that cannot raise
  is a plain total function.
* Filesystem and network effects are passed in explicitly as environment
  values (`CacheEnv`, `FetchEnv`): each models the observable outcome of the
  corresponding I/O primitive during one call.
-/

namespace VeniceSync

/-- Python exception classes that the script raises or catches. -/
inductive PyErr where
  | attributeError
  | typeError
  | valueError
  | requestException
  | retryableError
  deriving DecidableEq

/-- JSON-shaped Python values. Objects are association lists with unique
keys; the list order is the Python dict insertion order. -/
inductive JValue where
  | null
  | bool (b : Bool)
  | num (q : ℚ)
  | str (s : String)
  | arr (xs : List JValue)
  | obj (kvs : List (String × JValue))

/-- Python truthiness of a JSON-shaped value (`bool(v)`). -/
def truthy : JValue → Bool
  | .null => false
  | .bool b => b
  | .num q => q != 0
  | .str s => s ≠ ""
  | .arr xs => !xs.isEmpty
  | .obj kvs => !kvs.isEmpty

/-- Dictionary lookup, `d.get(k)` returning `none` on a missing key. -/
def lookupJ : List (String × JValue) → String → Option JValue
  | [], _ => none
  | (k2, v) :: rest, k => if k2 = k then some v else lookupJ rest k

/-- Dictionary lookup, `d.get(k)` with Python `None` for a missing key. -/
def dictGet (kvs : List (String × JValue)) (k : String) : JValue :=
  (lookupJ kvs k).getD .null

/-- In-place dictionary assignment `d[k] = v` (replace or append). -/
def setKey : List (String × JValue) → String → JValue → List (String × JValue)
  | [], k, v => [(k, v)]
  | (k2, v2) :: rest, k, v =>
      if k2 = k then (k, v) :: rest else (k2, v2) :: setKey rest k v

/-- Key removal, the effect of `d.pop(k, default)` on the dictionary. -/
def eraseKey : List (String × JValue) → String → List (String × JValue)
  | [], _ => []
  | (k2, v) :: rest, k =>
      if k2 = k then eraseKey rest k else (k2, v) :: eraseKey rest k

/-- Python `a or b` on JSON-shaped values. -/
def pyOr (a b : JValue) : JValue := if truthy a then a else b

/-- Whether the first character list starts the second one. -/
def chStarts : List Char → List Char → Bool
  | [], _ => true
  | _ :: _, [] => false
  | a :: as, b :: bs => a = b && chStarts as bs

/-- Whether the first character list occurs inside the second one
(Python substring containment `needle in haystack`). -/
def chHas (needle : List Char) : List Char → Bool
  | [] => chStarts needle []
  | c :: rest => chStarts needle (c :: rest) || chHas needle rest

/-- Reads a non-empty all-digit character list as a natural number. -/
def readDigitsAux : List Char → ℕ → Option ℕ
  | [], acc => some acc
  | c :: rest, acc =>
      if c.isDigit then readDigitsAux rest (acc * 10 + (c.toNat - 48)) else none

/-- Reads a non-empty all-digit character list as a natural number;
empty input fails. -/
def readDigits : List Char → Option ℕ
  | [] => none
  | cs => readDigitsAux cs 0

/-- Unsigned decimal literal: digits with an optional fractional part.
Helper for `parseFloatQ`. -/
def parseUnsignedQ (cs : List Char) : Option ℚ :=
  let ip := cs.takeWhile (fun c => c ≠ '.')
  match cs.dropWhile (fun c => c ≠ '.') with
  | [] => (readDigits ip).map (fun n => (n : ℚ))
  | _ :: frac =>
      if ip.isEmpty && frac.isEmpty then none
      else if frac.isEmpty then (readDigits ip).map (fun n => (n : ℚ))
      else
        match (if ip.isEmpty then some 0 else readDigits ip), readDigits frac with
        | some i, some f => some ((i : ℚ) + (f : ℚ) / ((10 : ℚ) ^ frac.length))
        | _, _ => none

/-- Models Python `float(s)` on plain decimal literals (optional sign,
digits, optional fractional part). Exponent, infinity, nan and whitespace
forms are not modelled; no claim depends on them. `none` is `ValueError`. -/
def parseFloatQ (s : String) : Option ℚ :=
  match s.data with
  | '-' :: rest => (parseUnsignedQ rest).map (fun q => -q)
  | '+' :: rest => parseUnsignedQ rest
  | cs => parseUnsignedQ cs

/-- Models Python `int(s)`: optional sign and digits only (a fractional
part is a `ValueError`). `none` is `ValueError`. -/
def parseIntZ (s : String) : Option ℤ :=
  match s.data with
  | '-' :: rest => (readDigits rest).map (fun n => -(n : ℤ))
  | '+' :: rest => (readDigits rest).map (fun n => (n : ℤ))
  | cs => (readDigits cs).map (fun n => (n : ℤ))

/-- Truncation toward zero, the behaviour of Python `int(float)`. -/
def ratTrunc (q : ℚ) : ℤ := if 0 ≤ q then q.floor else -((-q).floor)

/-- Models Python `int(v)` on a JSON-shaped value: numbers truncate toward
zero, booleans count as integers, strings are parsed; everything else is a
`TypeError` (`none`). -/
def pyInt : JValue → Option ℤ
  | .num q => some (ratTrunc q)
  | .bool b => some (if b then 1 else 0)
  | .str s => parseIntZ s
  | _ => none

/-- Models Python `float(v)` on a JSON-shaped value: numbers pass through,
booleans count as numbers, strings are parsed; everything else is a
`TypeError` (`none`). -/
def pyFloat : JValue → Option ℚ
  | .num q => some q
  | .bool b => some (if b then 1 else 0)
  | .str s => parseFloatQ s
  | _ => none

/-- Models Python `str(v)`. Only the string case is ever claim-relevant;
the renderings of the other cases are simplified. -/
def pyStr : JValue → String
  | .null => "None"
  | .bool true => "True"
  | .bool false => "False"
  | .num q => if q.den = 1 then toString q.num
              else toString q.num ++ "/" ++ toString q.den
  | .str s => s
  | .arr _ => "[...]"
  | .obj _ => "\x7b...\x7d"

/-- Two-digit zero-padded rendering of a natural number below 100. -/
def padTwo (n : ℕ) : String := if n < 10 then "0" ++ toString n else toString n

/-- Fixed-point rendering with two decimal places, the `.2f` format of the
source. Rounding is half-up on the rational value, a simplification of the
half-even float rounding; no claim depends on the rounded digits. -/
def fmt2 (q : ℚ) : String :=
  let sign := if q < 0 then "-" else ""
  let cents : ℤ := (|q| * 100 + 1 / 2).floor
  sign ++ toString (cents / 100) ++ "." ++ padTwo (cents % 100).toNat

/-- Embeds `format_price`: price per million tokens, distinguishing a
missing price (`None`) from an explicit zero. -/
def format_price : Option ℚ → String
  | none => "N/A"
  | some usd => if usd = 0 then "$0.00/M" else "$" ++ fmt2 usd ++ "/M"

/-- Embeds the `ModelCapabilities` dataclass: the capability flags. -/
structure ModelCapabilities where
  vision : Bool
  reasoning : Bool
  function_calling : Bool
  web_search : Bool
  code_optimized : Bool
  response_schema : Bool
  deriving DecidableEq

/-- Embeds `ModelCapabilities.from_dict`: a non-dict input yields all
flags false; flags are Python truthiness of the corresponding keys. -/
def ModelCapabilities.from_dict : JValue → ModelCapabilities
  | .obj kvs =>
      ⟨truthy (dictGet kvs "supportsVision"),
       truthy (dictGet kvs "supportsReasoning"),
       truthy (dictGet kvs "supportsFunctionCalling"),
       truthy (dictGet kvs "supportsWebSearch"),
       truthy (dictGet kvs "optimizedForCode"),
       truthy (dictGet kvs "supportsResponseSchema")⟩
  | _ => ⟨false, false, false, false, false, false⟩

/-- Embeds the `ModelPricing` dataclass; `none` is unknown/missing. -/
structure ModelPricing where
  input_usd : Option ℚ
  output_usd : Option ℚ
  deriving DecidableEq

/-- Embeds the inner `extract_price` of `ModelPricing.from_dict`: a
non-dict sub-object or a missing/`null` `usd` value yields `none`; a
failed `float` coercion also degrades to `none`. -/
def extract_price (kvs : List (String × JValue)) (key : String) : Option ℚ :=
  match lookupJ kvs key with
  | some (.obj sub) =>
      match lookupJ sub "usd" with
      | none => none
      | some .null => none
      | some v => pyFloat v
  | _ => none

/-- Embeds `ModelPricing.from_dict`: a non-dict input yields both prices
unknown. -/
def ModelPricing.from_dict : JValue → ModelPricing
  | .obj kvs => ⟨extract_price kvs "input", extract_price kvs "output"⟩
  | _ => ⟨none, none⟩

/-- Embeds the `Model` dataclass. The source annotates `model_type` as a
string but stores `data.get("type") or fallback_type` unvalidated, so the
field is kept as a raw `JValue` here. -/
structure Model where
  id : String
  name : String
  model_type : JValue
  context_tokens : ℤ
  default_temperature : ℚ
  capabilities : ModelCapabilities
  pricing : ModelPricing

/-- Embeds `spec = data.get("model_spec") or {}` followed by the
`isinstance` guard that resets a truthy non-dict to `{}`. -/
def specOf (data : List (String × JValue)) : List (String × JValue) :=
  match pyOr (dictGet data "model_spec") (.obj []) with
  | .obj kvs => kvs
  | _ => []

/-- Embeds `context = spec.get("availableContextTokens", 32768)` with the
`int(context)` coercion degrading to 32768 on failure. -/
def contextOf (spec : List (String × JValue)) : ℤ :=
  ((lookupJ spec "availableContextTokens").getD (.num 32768) |> pyInt).getD 32768

/-- Embeds `temp_obj = constraints.get("temperature") or {}` and the
guarded read of its `default` key: only an `int` or `float` value (Python
booleans included, being `int` instances) replaces the `0.7` default. -/
def defaultTempOf (ckvs : List (String × JValue)) : ℚ :=
  match pyOr (dictGet ckvs "temperature") (.obj []) with
  | .obj tkvs =>
      match lookupJ tkvs "default" with
      | some (.num q) => q
      | some (.bool b) => if b then 1 else 0
      | _ => 7 / 10
  | _ => 7 / 10

/-- Embeds `Model.from_api_response`. A record without a truthy string
`id` yields `.ok none`. The only raise point of the source is reproduced
faithfully: `constraints = spec.get("constraints") or {}` is NOT guarded
by an `isinstance` check (unlike `model_spec`), so a truthy non-mapping
`constraints` value hits `constraints.get(...)` and raises
`AttributeError`. -/
def Model.from_api_response (data : List (String × JValue)) (fallback_type : JValue) :
    Except PyErr (Option Model) :=
  match lookupJ data "id" with
  | some (.str model_id) =>
      if model_id = "" then .ok none
      else
        match pyOr (dictGet (specOf data) "constraints") (.obj []) with
        | .obj ckvs =>
            .ok (some ⟨model_id,
                       pyStr (pyOr (dictGet (specOf data) "name") (.str model_id)),
                       pyOr (dictGet data "type") fallback_type,
                       contextOf (specOf data),
                       defaultTempOf ckvs,
                       ModelCapabilities.from_dict (dictGet (specOf data) "capabilities"),
                       ModelPricing.from_dict (dictGet (specOf data) "pricing")⟩)
        | _ => .error .attributeError
  | _ => .ok none

/-- Whether a raw record carries a truthy string `id`, the gate of
`Model.from_api_response`. -/
def hasValidIdB (data : List (String × JValue)) : Bool :=
  match lookupJ data "id" with
  | some (.str s) => s ≠ ""
  | _ => false

/-- Observable filesystem state at one cache key during one call.
`file = none` models an absent path (or a failing `stat`); otherwise the
pair carries the modification time and the outcome of opening and
JSON-decoding the file (`.error` models a read or parse failure). -/
structure CacheEnv where
  now : ℚ
  file : Option (ℚ × Except PyErr JValue)

/-- Embeds `CacheManager.get`: returns `(data, is_fresh)`. The source
decodes the file before the age checks, so a corrupt record is a miss at
any age; every error path degrades to `(None, False)`. -/
def CacheManager.get (fresh_ttl stale_ttl : ℚ) (c : CacheEnv) : Option JValue × Bool :=
  match c.file with
  | none => (none, false)
  | some (mtime, rd) =>
      match rd with
      | .error _ => (none, false)
      | .ok data =>
          let age := c.now - mtime
          if age ≤ fresh_ttl then (some data, true)
          else if age ≤ stale_ttl then (some data, false)
          else (none, false)

/-- Embeds `CacheManager.get_stale`: the explicit stale fallback. The
source opens the file only under the stale-TTL age check and swallows all
read errors. -/
def CacheManager.get_stale (stale_ttl : ℚ) (c : CacheEnv) : Option JValue :=
  match c.file with
  | none => none
  | some (mtime, rd) =>
      let age := c.now - mtime
      if age ≤ stale_ttl then
        match rd with
        | .ok d => some d
        | .error _ => none
      else none

/-- One invocation outcome of an operation wrapped by `retry_with_backoff`:
a successful return, a raised `RetryableError` (with its optional
`retry_after` hint), a raised exception of one of the other caught classes
(`RequestException`, `ValueError`, `json.JSONDecodeError`), or a raised
exception of an uncaught class. -/
inductive RetryOutcome (ε α : Type) where
  | ok (v : α)
  | retryableErr (e : ε) (retry_after : Option ℚ)
  | requestErr (e : ε)
  | fatalErr (e : ε)
  deriving DecidableEq

/-- Whether the wrapper `except` clauses catch this outcome. -/
def RetryOutcome.isCaught : RetryOutcome ε α → Bool
  | .retryableErr _ _ => true
  | .requestErr _ => true
  | _ => false

/-- An exception leaving the retry wrapper: either the re-raised (or
immediately propagated) operation failure, or the `ValueError` that
`time.sleep` raises when asked to sleep a negative duration. The sleep
sits outside the `try` block, so that `ValueError` is caught by nothing
in the wrapper. -/
inductive RetryErr (ε α : Type) where
  | raised (o : RetryOutcome ε α)
  | sleepValueError
  deriving DecidableEq

/-- Observable behaviour of one run of the retry wrapper: its final result
(the raised exception on failure), how many times it invoked the
operation, and the sequence of sleeps actually performed between
attempts. -/
structure RetryRun (ε α : Type) where
  result : Except (RetryErr ε α) α
  calls : ℕ
  waits : List ℚ

/-- Embeds `e.retry_after if e.retry_after else current_delay`: the hint
is used only when present AND truthy (a `0.0` hint is falsy in Python and
falls back to the current delay; a negative hint is truthy and is used). -/
def hintOrDelay (o : RetryOutcome ε α) (d : ℚ) : ℚ :=
  match o with
  | .retryableErr _ (some x) => if x = 0 then d else x
  | _ => d

/-- The loop body of `retry_with_backoff`, by recursion on the remaining
retries. `op attempt` is the outcome of the attempt-th invocation of the
wrapped operation. On a caught failure with retries remaining, the wrapper
computes `wait = min(wait, max_delay)` and calls `time.sleep(wait)`: for a
negative wait (reachable through a truthy negative retry-after hint) the
sleep raises `ValueError`, which propagates uncaught after the current
invocation with no wait performed; otherwise the sleep succeeds and the
delay grows to `min(current_delay * backoff, max_delay)`. An uncaught
operation exception propagates at once; after the last attempt the last
caught exception is re-raised. -/
def retryGo (op : ℕ → RetryOutcome ε α) (backoff max_delay : ℚ) :
    ℕ → ℕ → ℚ → RetryRun ε α
  | remaining, attempt, current_delay =>
    match op attempt with
    | .ok v => ⟨.ok v, 1, []⟩
    | .fatalErr e => ⟨.error (.raised (.fatalErr e)), 1, []⟩
    | .retryableErr e ra =>
        match remaining with
        | 0 => ⟨.error (.raised (.retryableErr e ra)), 1, []⟩
        | r + 1 =>
            if min (hintOrDelay (.retryableErr e ra : RetryOutcome ε α) current_delay)
                max_delay < 0 then
              ⟨.error .sleepValueError, 1, []⟩
            else
              let rest := retryGo op backoff max_delay r (attempt + 1)
                (min (current_delay * backoff) max_delay)
              ⟨rest.result, rest.calls + 1,
               min (hintOrDelay (.retryableErr e ra : RetryOutcome ε α) current_delay)
                 max_delay :: rest.waits⟩
    | .requestErr e =>
        match remaining with
        | 0 => ⟨.error (.raised (.requestErr e)), 1, []⟩
        | r + 1 =>
            if min (hintOrDelay (.requestErr e : RetryOutcome ε α) current_delay)
                max_delay < 0 then
              ⟨.error .sleepValueError, 1, []⟩
            else
              let rest := retryGo op backoff max_delay r (attempt + 1)
                (min (current_delay * backoff) max_delay)
              ⟨rest.result, rest.calls + 1,
               min (hintOrDelay (.requestErr e : RetryOutcome ε α) current_delay)
                 max_delay :: rest.waits⟩

/-- Embeds `retry_with_backoff(retries, delay, backoff, max_delay)` applied
to an operation whose attempt-indexed outcomes are `op`. -/
def retry_with_backoff (retries : ℕ) (delay backoff max_delay : ℚ)
    (op : ℕ → RetryOutcome ε α) : RetryRun ε α :=
  retryGo op backoff max_delay retries 0 delay

/-- The current-delay sequence of the wrapper: starts at the configured
delay and after each wait becomes `min(current_delay * backoff, max_delay)`. -/
def delaySeq (backoff max_delay : ℚ) : ℚ → ℕ → ℚ
  | d, 0 => d
  | d, k + 1 => delaySeq backoff max_delay (min (d * backoff) max_delay) k

/-- Observable data of one HTTP response inside `VeniceClient._fetch`:
status code, the `Retry-After` header when present, and the outcome of
`resp.json()`. -/
structure HttpResponse where
  status : ℕ
  retryAfterHeader : Option String
  body : Except PyErr JValue

/-- Embeds the body of `VeniceClient._fetch` as the classification of one
response: 429 raises `RetryableError` with the parsed `Retry-After` hint
(an unparsable header leaves the hint absent); any other 4xx/5xx raises
`HTTPError`, a `RequestException` subclass; a body decode failure raises
`ValueError`; otherwise the decoded JSON is returned. -/
def fetchClassify (r : HttpResponse) : RetryOutcome PyErr JValue :=
  if r.status = 429 then
    .retryableErr .retryableError (r.retryAfterHeader.bind parseFloatQ)
  else if 400 ≤ r.status ∧ r.status < 600 then
    .requestErr .requestException
  else
    match r.body with
    | .ok j => .ok j
    | .error _ => .requestErr .valueError

/-- Embeds the `ModelType` enum. -/
inductive ModelType where
  | text
  | image
  | code
  | all
  deriving DecidableEq

/-- The `value` attribute of a `ModelType` member. -/
def ModelType.value : ModelType → String
  | .text => "text"
  | .image => "image"
  | .code => "code"
  | .all => "all"

/-- Observable environment of one `VeniceClient.fetch_models` call:
the cache state at this call's key (`none` models `use_cache=False`), the
TTLs, and for each requested type string the final outcome of the
retry-wrapped `_fetch("models", type=t)` call (`.error` is the exception
it raises after exhausting its retries, whatever its class). Writes by
`CacheManager.set` are best-effort and are never re-read within the same
call, so they have no observable effect here. -/
structure FetchEnv where
  fresh_ttl : ℚ
  stale_ttl : ℚ
  cache : Option CacheEnv
  fetchResult : String → Except PyErr JValue

/-- Embeds `VeniceClient._fetch_models_for_type`: every exception from the
fetch is caught and degrades to an empty list; a non-dict body, a missing
`data` key, or a non-list `data` value also yield an empty list. -/
def fetch_models_for_type (env : FetchEnv) (t : String) : List JValue :=
  match env.fetchResult t with
  | .error _ => []
  | .ok j =>
      match j with
      | .obj kvs =>
          match lookupJ kvs "data" with
          | some (.arr xs) => xs
          | some _ => []
          | none => []
      | _ => []

/-- One step of the annotation loop `if "type" not in m:
m["_fallback_type"] = t`. For a dict, assignment happens only when the
key `type` is absent. For a string, `in` is substring containment and the
item assignment on a string raises `TypeError`; for a list, `in` is
membership and the assignment raises `TypeError`; for the remaining
values `in` itself raises `TypeError`. -/
def annotateOne (t : String) : JValue → Except PyErr JValue
  | .obj kvs =>
      if (lookupJ kvs "type").isSome then .ok (.obj kvs)
      else .ok (.obj (setKey kvs "_fallback_type" (.str t)))
  | .str s => if chHas "type".data s.data then .ok (.str s) else .error .typeError
  | .arr xs =>
      if xs.any (fun v => match v with | .str s => s = "type" | _ => false) then
        .ok (.arr xs)
      else .error .typeError
  | _ => .error .typeError

/-- The annotation loop over a fetched record list. Annotation mutates the
list in place, so on an exception the already-processed prefix stays
annotated and the rest (the offending element included) stays as it was. -/
def annotateLoop (t : String) : List JValue → List JValue × Option PyErr
  | [] => ([], none)
  | m :: rest =>
      match annotateOne t m with
      | .error e => (m :: rest, some e)
      | .ok m2 =>
          let (r, err) := annotateLoop t rest
          (m2 :: r, err)

/-- The `ModelType.ALL` loop of `fetch_models`: fetch and annotate each
fixed type in order, extending `raw_models` after each fully annotated
batch; an exception inside the annotation loop skips the extend for the
current batch and aborts the loop. -/
def allLoop (env : FetchEnv) : List String → List JValue × Option PyErr
  | [] => ([], none)
  | t :: rest =>
      let ms := fetch_models_for_type env t
      let (ms2, err) := annotateLoop t ms
      match err with
      | some e => ([], some e)
      | none =>
          let (restL, restE) := allLoop env rest
          (ms2 ++ restL, restE)

/-- The live-fetch step of `fetch_models`: the collected `raw_models` list
and the exception captured by `except Exception as e: fetch_error = e`,
when one was raised. -/
def liveFetch (env : FetchEnv) (mt : ModelType) : List JValue × Option PyErr :=
  match mt with
  | .all => allLoop env ["text", "image", "code"]
  | _ => annotateLoop mt.value (fetch_models_for_type env mt.value)

/-- Lexicographic code-point comparison of character lists, the order
Python uses to compare strings. -/
def chLe : List Char → List Char → Bool
  | [], _ => true
  | _ :: _, [] => false
  | a :: as, b :: bs => if a = b then chLe as bs else decide (a < b)

/-- Sort order of the final `sorted(models, key=lambda m: m.id)`:
code-point lexicographic comparison of the ids. -/
def byId (a b : Model) : Prop := chLe a.id.data b.id.data = true

instance : DecidableRel byId := fun a b =>
  inferInstanceAs (Decidable (chLe a.id.data b.id.data = true))

theorem chLe_total : ∀ as bs : List Char, chLe as bs = true ∨ chLe bs as = true
  | [], _ => Or.inl rfl
  | _ :: _, [] => Or.inr rfl
  | a :: as, b :: bs => by
      by_cases hab : a = b
      · subst hab
        simpa [chLe] using chLe_total as bs
      · rcases lt_or_gt_of_ne hab with h | h
        · left
          simp [chLe, hab, h]
        · right
          simp [chLe, Ne.symm hab, h]

theorem chLe_trans : ∀ as bs cs : List Char,
    chLe as bs = true → chLe bs cs = true → chLe as cs = true
  | [], _, _, _, _ => rfl
  | _ :: _, [], _, h1, _ => by simp [chLe] at h1
  | _ :: _, _ :: _, [], _, h2 => by simp [chLe] at h2
  | a :: as, b :: bs, c :: cs, h1, h2 => by
      by_cases hab : a = b <;> by_cases hbc : b = c
      · subst hab; subst hbc
        simp only [chLe, if_pos rfl] at h1 h2 ⊢
        exact chLe_trans as bs cs h1 h2
      · subst hab
        simpa [chLe, hbc] using h2
      · subst hbc
        simpa [chLe, hab] using h1
      · simp only [chLe, if_neg hab, decide_eq_true_eq] at h1
        simp only [chLe, if_neg hbc, decide_eq_true_eq] at h2
        have hac : a < c := lt_trans h1 h2
        simp [chLe, ne_of_lt hac, hac]

instance : IsTotal Model byId := ⟨fun a b => chLe_total a.id.data b.id.data⟩

instance : IsTrans Model byId := ⟨fun a b c => chLe_trans a.id.data b.id.data c.id.data⟩

/-- Python iteration `for raw in raw_models` over a JSON-shaped value:
lists yield their elements, dicts their keys, strings their characters;
the other values raise `TypeError`. Only the list case arises on the live
path; the rest can only come from a cached blob. -/
def iterElems : JValue → Except PyErr (List JValue)
  | .arr xs => .ok xs
  | .obj kvs => .ok (kvs.map (fun kv => .str kv.1))
  | .str s => .ok (s.data.map (fun c => .str (String.singleton c)))
  | _ => .error .typeError

/-- One iteration of the `_parse_models` loop:
`fallback = raw.pop("_fallback_type", default_type)` followed by
`Model.from_api_response(raw, fallback_type=fallback)`. Both raise,
uncaught here, on a non-dict record: a list has a `pop`, but a
one-positional-argument one, so the two-argument call raises `TypeError`;
the other values have no `pop` attribute and raise `AttributeError`. -/
def parseOne (default_type : String) (raw : JValue) : Except PyErr (Option Model) :=
  match raw with
  | .obj kvs =>
      let fallback := (lookupJ kvs "_fallback_type").getD (.str default_type)
      Model.from_api_response (eraseKey kvs "_fallback_type") fallback
  | .arr _ => .error .typeError
  | _ => .error .attributeError

/-- The record loop of `_parse_models`: parse each record, keep the truthy
results, propagate any exception. -/
def parseLoop (default_type : String) : List JValue → Except PyErr (List Model)
  | [] => .ok []
  | raw :: rest =>
      match parseOne default_type raw with
      | .error e => .error e
      | .ok none => parseLoop default_type rest
      | .ok (some m) => (parseLoop default_type rest).map (fun l => m :: l)

/-- Embeds `VeniceClient._parse_models`: parse the raw records and return
them sorted by `id`. Python `sorted` is a stable sort on the key, which
`List.insertionSort` on `byId` realizes. -/
def parse_models (raw : JValue) (mt : ModelType) : Except PyErr (List Model) :=
  match iterElems raw with
  | .error e => .error e
  | .ok xs =>
      (parseLoop (if mt = ModelType.all then "text" else mt.value) xs).map
        (List.insertionSort byId)

/-- The post-cache-check part of `fetch_models`: live fetch; then, only
when `raw_models` ended up empty and a cache exists, consult the explicit
stale path, use a truthy stale blob, and otherwise re-raise a captured
fetch error when there is one; finally parse. -/
def fetchLive (env : FetchEnv) (mt : ModelType) : Except PyErr (List Model) :=
  let p := liveFetch env mt
  if p.1.isEmpty then
    match env.cache with
    | some c =>
        match CacheManager.get_stale env.stale_ttl c with
        | some sd =>
            if truthy sd then parse_models sd mt
            else
              match p.2 with
              | some e => .error e
              | none => parse_models (.arr p.1) mt
        | none =>
            match p.2 with
            | some e => .error e
            | none => parse_models (.arr p.1) mt
    | none => parse_models (.arr p.1) mt
  else parse_models (.arr p.1) mt

/-- Embeds `VeniceClient.fetch_models`: the fresh-cache short circuit
(`if cached_data and is_fresh`) requires the cached value itself to be
truthy; otherwise the live path of `fetchLive` runs. `_parse_cached_models`
just forwards to `_parse_models`. -/
def fetch_models (env : FetchEnv) (mt : ModelType) : Except PyErr (List Model) :=
  match env.cache with
  | some c =>
      match CacheManager.get env.fresh_ttl env.stale_ttl c with
      | (cd, is_fresh) =>
          match cd with
          | some d => if truthy d && is_fresh then parse_models d mt
                      else fetchLive env mt
          | none => fetchLive env mt
  | none => fetchLive env mt

/-! Helper lemmas: controlled unfolding equations for `parse_models`. -/

theorem parse_models_iterErr {raw : JValue} {mt : ModelType} {e : PyErr}
    (h : iterElems raw = .error e) : parse_models raw mt = .error e := by
  unfold parse_models
  rw [h]

theorem parse_models_iterOk {raw : JValue} {mt : ModelType} {xs : List JValue}
    (h : iterElems raw = .ok xs) :
    parse_models raw mt =
      (parseLoop (if mt = ModelType.all then "text" else mt.value) xs).map
        (List.insertionSort byId) := by
  unfold parse_models
  rw [h]

/-! Helper lemmas about the cache store, shared by several claims. -/

theorem cacheGet_fresh (f s : ℚ) (c : CacheEnv) (m : ℚ) (D : JValue)
    (hf : c.file = some (m, .ok D)) (h : c.now - m ≤ f) :
    CacheManager.get f s c = (some D, true) := by
  simp [CacheManager.get, hf, h]

theorem cacheGet_staleAge (f s : ℚ) (c : CacheEnv) (m : ℚ) (D : JValue)
    (hf : c.file = some (m, .ok D)) (h1 : ¬ c.now - m ≤ f) (h2 : c.now - m ≤ s) :
    CacheManager.get f s c = (some D, false) := by
  simp [CacheManager.get, hf, h1, h2]

theorem cacheGet_expired (f s : ℚ) (c : CacheEnv) (m : ℚ) (D : JValue)
    (hf : c.file = some (m, .ok D)) (hfs : f ≤ s) (h : s < c.now - m) :
    CacheManager.get f s c = (none, false) := by
  have h1 : ¬ c.now - m ≤ f := by linarith
  have h2 : ¬ c.now - m ≤ s := by linarith
  simp [CacheManager.get, hf, h1, h2]

theorem cacheGet_corrupt (f s : ℚ) (c : CacheEnv) (m : ℚ) (err : PyErr)
    (hf : c.file = some (m, .error err)) :
    CacheManager.get f s c = (none, false) := by
  simp [CacheManager.get, hf]

theorem cacheGet_absent (f s : ℚ) (c : CacheEnv) (hf : c.file = none) :
    CacheManager.get f s c = (none, false) := by
  simp [CacheManager.get, hf]

theorem cacheStale_hit (s : ℚ) (c : CacheEnv) (m : ℚ) (D : JValue)
    (hf : c.file = some (m, .ok D)) (h : c.now - m ≤ s) :
    CacheManager.get_stale s c = some D := by
  simp [CacheManager.get_stale, hf, h]

theorem cacheStale_expired (s : ℚ) (c : CacheEnv) (m : ℚ) (rd : Except PyErr JValue)
    (hf : c.file = some (m, rd)) (h : ¬ c.now - m ≤ s) :
    CacheManager.get_stale s c = none := by
  simp [CacheManager.get_stale, hf, h]

theorem cacheStale_corrupt (s : ℚ) (c : CacheEnv) (m : ℚ) (err : PyErr)
    (hf : c.file = some (m, .error err)) :
    CacheManager.get_stale s c = none := by
  simp [CacheManager.get_stale, hf]

theorem cacheStale_absent (s : ℚ) (c : CacheEnv) (hf : c.file = none) :
    CacheManager.get_stale s c = none := by
  simp [CacheManager.get_stale, hf]

/-! Helper lemmas about the retry wrapper: one controlled unfolding
equation per case of the loop body, then the behavioural lemmas. -/

theorem retryGo_ok {ε α : Type} {op : ℕ → RetryOutcome ε α} {B M : ℚ}
    {remaining attempt : ℕ} {d : ℚ} {v : α} (h : op attempt = .ok v) :
    retryGo op B M remaining attempt d = ⟨.ok v, 1, []⟩ := by
  unfold retryGo
  rw [h]

theorem retryGo_fatalStep {ε α : Type} {op : ℕ → RetryOutcome ε α} {B M : ℚ}
    {remaining attempt : ℕ} {d : ℚ} {e : ε} (h : op attempt = .fatalErr e) :
    retryGo op B M remaining attempt d = ⟨.error (.raised (.fatalErr e)), 1, []⟩ := by
  unfold retryGo
  rw [h]

theorem retryGo_zero_caught {ε α : Type} {op : ℕ → RetryOutcome ε α} {B M : ℚ}
    {attempt : ℕ} {d : ℚ} (h : (op attempt).isCaught = true) :
    retryGo op B M 0 attempt d = ⟨.error (.raised (op attempt)), 1, []⟩ := by
  cases hop : op attempt
  case ok v => rw [hop] at h; exact Bool.noConfusion h
  case fatalErr e => rw [hop] at h; exact Bool.noConfusion h
  case retryableErr e ra =>
    unfold retryGo
    rw [hop]
  case requestErr e =>
    unfold retryGo
    rw [hop]

theorem retryGo_succ_caught {ε α : Type} {op : ℕ → RetryOutcome ε α} {B M : ℚ}
    {r attempt : ℕ} {d : ℚ} (h : (op attempt).isCaught = true)
    (hw : ¬ min (hintOrDelay (op attempt) d) M < 0) :
    retryGo op B M (r + 1) attempt d =
      ⟨(retryGo op B M r (attempt + 1) (min (d * B) M)).result,
       (retryGo op B M r (attempt + 1) (min (d * B) M)).calls + 1,
       min (hintOrDelay (op attempt) d) M ::
         (retryGo op B M r (attempt + 1) (min (d * B) M)).waits⟩ := by
  cases hop : op attempt
  case ok v => rw [hop] at h; exact Bool.noConfusion h
  case fatalErr e => rw [hop] at h; exact Bool.noConfusion h
  case retryableErr e ra =>
    rw [hop] at hw
    conv_lhs => unfold retryGo
    rw [hop]
    simp only [if_neg hw]
  case requestErr e =>
    rw [hop] at hw
    conv_lhs => unfold retryGo
    rw [hop]
    simp only [if_neg hw]

theorem retryGo_succ_negWait {ε α : Type} {op : ℕ → RetryOutcome ε α} {B M : ℚ}
    {r attempt : ℕ} {d : ℚ} (h : (op attempt).isCaught = true)
    (hw : min (hintOrDelay (op attempt) d) M < 0) :
    retryGo op B M (r + 1) attempt d = ⟨.error .sleepValueError, 1, []⟩ := by
  cases hop : op attempt
  case ok v => rw [hop] at h; exact Bool.noConfusion h
  case fatalErr e => rw [hop] at h; exact Bool.noConfusion h
  case retryableErr e ra =>
    rw [hop] at hw
    conv_lhs => unfold retryGo
    rw [hop]
    simp only [if_pos hw]
  case requestErr e =>
    rw [hop] at hw
    conv_lhs => unfold retryGo
    rw [hop]
    simp only [if_pos hw]

theorem retryGo_calls_pos (op : ℕ → RetryOutcome ε α) (B M : ℚ)
    (remaining attempt : ℕ) (d : ℚ) :
    1 ≤ (retryGo op B M remaining attempt d).calls := by
  cases hop : op attempt
  case ok v => rw [retryGo_ok hop]
  case fatalErr e => rw [retryGo_fatalStep hop]
  case retryableErr e ra =>
    have hc : (op attempt).isCaught = true := by rw [hop]; rfl
    cases remaining with
    | zero => rw [retryGo_zero_caught hc]
    | succ r =>
        by_cases hw : min (hintOrDelay (op attempt) d) M < 0
        · rw [retryGo_succ_negWait hc hw]
        · rw [retryGo_succ_caught hc hw]; exact Nat.le_add_left 1 _
  case requestErr e =>
    have hc : (op attempt).isCaught = true := by rw [hop]; rfl
    cases remaining with
    | zero => rw [retryGo_zero_caught hc]
    | succ r =>
        by_cases hw : min (hintOrDelay (op attempt) d) M < 0
        · rw [retryGo_succ_negWait hc hw]
        · rw [retryGo_succ_caught hc hw]; exact Nat.le_add_left 1 _

theorem hintOrDelay_nonneg {ε α : Type} {o : RetryOutcome ε α} {d : ℚ} (hd : 0 ≤ d)
    (hh : ∀ e x, o = .retryableErr e (some x) → 0 ≤ x) :
    0 ≤ hintOrDelay o d := by
  cases o with
  | retryableErr e ra =>
      cases ra with
      | none => exact hd
      | some x =>
          have hx := hh e x rfl
          show (0 : ℚ) ≤ if x = 0 then d else x
          split
          · exact hd
          · exact hx
  | ok v => exact hd
  | requestErr e => exact hd
  | fatalErr e => exact hd

theorem retryGo_exhaust (op : ℕ → RetryOutcome ε α) (B M : ℚ)
    (hB : 0 ≤ B) (hM : 0 ≤ M)
    (hhints : ∀ k e x, op k = .retryableErr e (some x) → 0 ≤ x) :
    ∀ (remaining attempt : ℕ) (d : ℚ), 0 ≤ d →
      (∀ k, attempt ≤ k → k ≤ attempt + remaining → (op k).isCaught = true) →
      (retryGo op B M remaining attempt d).result
          = .error (.raised (op (attempt + remaining))) ∧
        (retryGo op B M remaining attempt d).calls = remaining + 1 := by
  intro remaining
  induction remaining with
  | zero =>
      intro attempt d _ h
      have hc := h attempt le_rfl (by omega)
      rw [retryGo_zero_caught hc]
      exact ⟨by rw [Nat.add_zero], rfl⟩
  | succ r ih =>
      intro attempt d hd h
      have hc := h attempt le_rfl (by omega)
      have hw0 : 0 ≤ hintOrDelay (op attempt) d :=
        hintOrDelay_nonneg hd (fun e x hx => hhints attempt e x hx)
      have hw : ¬ min (hintOrDelay (op attempt) d) M < 0 :=
        not_lt.mpr (le_min hw0 hM)
      have hd2 : 0 ≤ min (d * B) M := le_min (mul_nonneg hd hB) hM
      have hrec := ih (attempt + 1) (min (d * B) M) hd2
        (fun k hk1 hk2 => h k (by omega) (by omega))
      have harith : attempt + 1 + r = attempt + (r + 1) := by omega
      rw [harith] at hrec
      rw [retryGo_succ_caught hc hw]
      exact ⟨hrec.1, by rw [hrec.2]⟩

theorem retryGo_fatal (op : ℕ → RetryOutcome ε α) (B M : ℚ)
    (hB : 0 ≤ B) (hM : 0 ≤ M)
    (hhints : ∀ k e x, op k = .retryableErr e (some x) → 0 ≤ x) :
    ∀ (j remaining attempt : ℕ) (d : ℚ) (e : ε), 0 ≤ d →
      j ≤ remaining →
      op (attempt + j) = .fatalErr e →
      (∀ i, i < j → (op (attempt + i)).isCaught = true) →
      (retryGo op B M remaining attempt d).result = .error (.raised (.fatalErr e)) ∧
        (retryGo op B M remaining attempt d).calls = j + 1 := by
  intro j
  induction j with
  | zero =>
      intro remaining attempt d e _ _ hfat _
      rw [Nat.add_zero] at hfat
      rw [retryGo_fatalStep hfat]
      exact ⟨rfl, rfl⟩
  | succ j ih =>
      intro remaining attempt d e hd hle hfat hcaught
      have h0 : (op (attempt + 0)).isCaught = true := hcaught 0 (by omega)
      rw [Nat.add_zero] at h0
      have hw0 : 0 ≤ hintOrDelay (op attempt) d :=
        hintOrDelay_nonneg hd (fun e2 x hx => hhints attempt e2 x hx)
      have hw : ¬ min (hintOrDelay (op attempt) d) M < 0 :=
        not_lt.mpr (le_min hw0 hM)
      have hd2 : 0 ≤ min (d * B) M := le_min (mul_nonneg hd hB) hM
      obtain ⟨r, rfl⟩ : ∃ r, remaining = r + 1 := ⟨remaining - 1, by omega⟩
      have harith : attempt + 1 + j = attempt + (j + 1) := by omega
      have hrec := ih r (attempt + 1) (min (d * B) M) e hd2 (by omega)
        (by rw [harith]; exact hfat)
        (fun i hi => by
          have hcall := hcaught (i + 1) (by omega)
          have harith2 : attempt + (i + 1) = attempt + 1 + i := by omega
          rw [harith2] at hcall
          exact hcall)
      rw [retryGo_succ_caught h0 hw]
      exact ⟨hrec.1, by rw [hrec.2]⟩

theorem retryGo_sleepErr (op : ℕ → RetryOutcome ε α) (B M : ℚ) :
    ∀ (j remaining attempt : ℕ) (d : ℚ),
      j < remaining →
      (∀ k, k ≤ j → (op (attempt + k)).isCaught = true) →
      (∀ i, i < j → ¬ min (hintOrDelay (op (attempt + i)) (delaySeq B M d i)) M < 0) →
      min (hintOrDelay (op (attempt + j)) (delaySeq B M d j)) M < 0 →
      (retryGo op B M remaining attempt d).result = .error .sleepValueError ∧
        (retryGo op B M remaining attempt d).calls = j + 1 := by
  intro j
  induction j with
  | zero =>
      intro remaining attempt d hj hcaught _ hneg
      obtain ⟨r, rfl⟩ : ∃ r, remaining = r + 1 := ⟨remaining - 1, by omega⟩
      have hc : (op attempt).isCaught = true := by
        have hc0 := hcaught 0 (by omega)
        rwa [Nat.add_zero] at hc0
      rw [Nat.add_zero] at hneg
      have hneg2 : min (hintOrDelay (op attempt) d) M < 0 := hneg
      rw [retryGo_succ_negWait hc hneg2]
      exact ⟨rfl, rfl⟩
  | succ j ih =>
      intro remaining attempt d hj hcaught hnneg hneg
      obtain ⟨r, rfl⟩ : ∃ r, remaining = r + 1 := ⟨remaining - 1, by omega⟩
      have hc0 : (op attempt).isCaught = true := by
        have hc1 := hcaught 0 (by omega)
        rwa [Nat.add_zero] at hc1
      have hw0 : ¬ min (hintOrDelay (op attempt) d) M < 0 := by
        have hn := hnneg 0 (by omega)
        rw [Nat.add_zero] at hn
        exact hn
      have hrec := ih r (attempt + 1) (min (d * B) M) (by omega)
        (fun k hk => by
          have hck := hcaught (k + 1) (by omega)
          have ha : attempt + (k + 1) = attempt + 1 + k := by omega
          rwa [ha] at hck)
        (fun i hi => by
          have hni := hnneg (i + 1) (by omega)
          have ha : attempt + (i + 1) = attempt + 1 + i := by omega
          rw [ha] at hni
          exact hni)
        (by
          have ha : attempt + (j + 1) = attempt + 1 + j := by omega
          rw [ha] at hneg
          exact hneg)
      rw [retryGo_succ_caught hc0 hw0]
      exact ⟨hrec.1, by rw [hrec.2]⟩

theorem retryGo_waits (op : ℕ → RetryOutcome ε α) (B M : ℚ) :
    ∀ (remaining attempt : ℕ) (d : ℚ),
      (retryGo op B M remaining attempt d).waits =
        (List.range ((retryGo op B M remaining attempt d).calls - 1)).map
          (fun i => min (hintOrDelay (op (attempt + i)) (delaySeq B M d i)) M) := by
  intro remaining
  induction remaining with
  | zero =>
      intro attempt d
      cases hop : op attempt
      case ok v => rw [retryGo_ok hop]; rfl
      case fatalErr e => rw [retryGo_fatalStep hop]; rfl
      case retryableErr e ra =>
        have hc : (op attempt).isCaught = true := by rw [hop]; rfl
        rw [retryGo_zero_caught hc]
        rfl
      case requestErr e =>
        have hc : (op attempt).isCaught = true := by rw [hop]; rfl
        rw [retryGo_zero_caught hc]
        rfl
  | succ r ih =>
      intro attempt d
      have hpos := retryGo_calls_pos op B M r (attempt + 1) (min (d * B) M)
      have hrec := ih (attempt + 1) (min (d * B) M)
      cases hop : op attempt
      case ok v => rw [retryGo_ok hop]; rfl
      case fatalErr e => rw [retryGo_fatalStep hop]; rfl
      case retryableErr e ra =>
        have hc : (op attempt).isCaught = true := by rw [hop]; rfl
        by_cases hw : min (hintOrDelay (op attempt) d) M < 0
        · rw [retryGo_succ_negWait hc hw]
          rfl
        · rw [retryGo_succ_caught hc hw]
          show min (hintOrDelay (op attempt) d) M ::
              (retryGo op B M r (attempt + 1) (min (d * B) M)).waits = _
          rw [hrec]
          obtain ⟨n0, hn0⟩ : ∃ n0,
              (retryGo op B M r (attempt + 1) (min (d * B) M)).calls = n0 + 1 :=
            ⟨(retryGo op B M r (attempt + 1) (min (d * B) M)).calls - 1, by omega⟩
          rw [hn0]
          simp only [Nat.add_sub_cancel, List.range_succ_eq_map, List.map_cons,
            List.map_map]
          refine List.cons_eq_cons.mpr ⟨?_, ?_⟩
          · simp [delaySeq]
          · apply List.map_congr_left
            intro i _
            simp only [Function.comp]
            have harith : attempt + (i + 1) = attempt + 1 + i := by omega
            rw [harith]
            rfl
      case requestErr e =>
        have hc : (op attempt).isCaught = true := by rw [hop]; rfl
        by_cases hw : min (hintOrDelay (op attempt) d) M < 0
        · rw [retryGo_succ_negWait hc hw]
          rfl
        · rw [retryGo_succ_caught hc hw]
          show min (hintOrDelay (op attempt) d) M ::
              (retryGo op B M r (attempt + 1) (min (d * B) M)).waits = _
          rw [hrec]
          obtain ⟨n0, hn0⟩ : ∃ n0,
              (retryGo op B M r (attempt + 1) (min (d * B) M)).calls = n0 + 1 :=
            ⟨(retryGo op B M r (attempt + 1) (min (d * B) M)).calls - 1, by omega⟩
          rw [hn0]
          simp only [Nat.add_sub_cancel, List.range_succ_eq_map, List.map_cons,
            List.map_map]
          refine List.cons_eq_cons.mpr ⟨?_, ?_⟩
          · simp [delaySeq]
          · apply List.map_congr_left
            intro i _
            simp only [Function.comp]
            have harith : attempt + (i + 1) = attempt + 1 + i := by omega
            rw [harith]
            rfl

/-! The claim theorems. -/

/-- A fetch environment in which every live fetch attempt fails (the
retry-wrapped call raises after exhausting its retries for every type) and
the enabled cache is empty. -/
def failEnv (e : PyErr) : FetchEnv := ⟨300, 86400, some ⟨0, none⟩, fun _ => .error e⟩

/-- C1: refuted on the code. When every requested partition's live fetch
fails (retries exhausted) and no stale cache exists, `fetch_models` does
NOT raise: `_fetch_models_for_type` catches every exception and returns an
empty list, so `fetch_error` is never set and the call returns `.ok []`,
indistinguishable from a successful fetch of an empty catalog. -/
theorem fetch_failure_swallowed (e : PyErr) (mt : ModelType) :
    fetch_models (failEnv e) mt = .ok [] := by
  cases mt <;> rfl

/-- C2: refuted on the code. The normalizer can raise: a record with a
valid id whose `model_spec.constraints` is a truthy non-mapping value hits
the unguarded `constraints.get("temperature")` and raises
`AttributeError`, contradicting the never-raise contract. -/
theorem normalizer_raises_on_nonmapping_constraints :
    Model.from_api_response
      [("id", .str "m1"), ("model_spec", .obj [("constraints", .num 5)])]
      (.str "text") = .error .attributeError := rfl

/-- C3 counterexample: the result set of `_parse_models` is NOT
deduplicated: two raw records with the same id both survive, so the result
contains two entries sharing the id `m`. -/
theorem parse_models_duplicate_ids :
    (parse_models (.arr [.obj [("id", .str "m")], .obj [("id", .str "m")]])
        ModelType.text).map (fun l => l.map Model.id) = .ok ["m", "m"] ∧
      ¬ (["m", "m"] : List String).Nodup := by
  exact ⟨rfl, by decide⟩

/-- C7 counterexample: a record with a perfectly valid non-empty string id
can still fail to yield an entry — the normalizer raises on it (truthy
non-mapping `constraints`), so "otherwise it returns an entry" is false as
stated. -/
theorem normalizer_raises_despite_valid_id :
    hasValidIdB [("id", .str "m1"), ("model_spec", .obj [("constraints", .str "x")])]
        = true ∧
      Model.from_api_response
        [("id", .str "m1"), ("model_spec", .obj [("constraints", .str "x")])]
        (.str "text") = .error .attributeError :=
  ⟨rfl, rfl⟩

/-- The end-to-end record of the spec scenario: explicit `usd: 0` for the
input price. -/
def recPricedZero : List (String × JValue) :=
  [("id", .str "m1"),
   ("model_spec", .obj [("pricing", .obj [("input", .obj [("usd", .num 0)])])])]

/-- A record with the pricing field absent. -/
def recNoPricing : List (String × JValue) := [("id", .str "m2")]

/-- C8: pricing is three-valued and zero is distinguishable from unknown:
an explicit `usd: 0` yields input price exactly `0` (not unknown), an
absent pricing object yields both prices unknown, and the price formatter
renders the two as visibly different tokens. -/
theorem pricing_zero_vs_unknown :
    (Model.from_api_response recPricedZero (.str "text")).map
        (Option.map (fun m => m.pricing)) = .ok (some ⟨some 0, none⟩) ∧
      (Model.from_api_response recNoPricing (.str "text")).map
        (Option.map (fun m => m.pricing)) = .ok (some ⟨none, none⟩) ∧
      format_price (some 0) = "$0.00/M" ∧
      format_price none = "N/A" ∧
      format_price (some 0) ≠ format_price none :=
  ⟨rfl, rfl, rfl, rfl, by decide⟩

/-- C4: the cache aging contract. With fresh-TTL at most stale-TTL (the
configured TTL semantics): a readable record aged at most fresh-TTL is a
fresh hit; aged between the TTLs it is `(data, fresh=false)` from `get`
and `data` from `get_stale`; aged past stale-TTL, absent, or corrupt, both
operations report a miss. Both operations are total functions here —
neither raises. -/
theorem cache_aging_contract (f s : ℚ) (c : CacheEnv) (hfs : f ≤ s) :
    (∀ m D, c.file = some (m, .ok D) → c.now - m ≤ f →
      CacheManager.get f s c = (some D, true)) ∧
    (∀ m D, c.file = some (m, .ok D) → f < c.now - m → c.now - m ≤ s →
      CacheManager.get f s c = (some D, false) ∧
        CacheManager.get_stale s c = some D) ∧
    (∀ m D, c.file = some (m, .ok D) → s < c.now - m →
      CacheManager.get f s c = (none, false) ∧
        CacheManager.get_stale s c = none) ∧
    (c.file = none →
      CacheManager.get f s c = (none, false) ∧
        CacheManager.get_stale s c = none) ∧
    (∀ m err, c.file = some (m, .error err) →
      CacheManager.get f s c = (none, false) ∧
        CacheManager.get_stale s c = none) := by
  refine ⟨?_, ?_, ?_, ?_, ?_⟩
  · intro m D hf h
    exact cacheGet_fresh f s c m D hf h
  · intro m D hf h1 h2
    exact ⟨cacheGet_staleAge f s c m D hf (by linarith) h2,
           cacheStale_hit s c m D hf h2⟩
  · intro m D hf h
    exact ⟨cacheGet_expired f s c m D hf hfs h,
           cacheStale_expired s c m (.ok D) hf (by linarith)⟩
  · intro hf
    exact ⟨cacheGet_absent f s c hf, cacheStale_absent s c hf⟩
  · intro m err hf
    exact ⟨cacheGet_corrupt f s c m err hf, cacheStale_corrupt s c m err hf⟩

/-- Witness for the cache aging contract at the configured TTLs (300 and
86400) on concrete ages 100 (fresh), 1000 (stale), 100000 (expired), plus
an absent and a corrupt record. -/
theorem cache_aging_contract_witness :
    CacheManager.get 300 86400 ⟨100, some (0, .ok (.num 1))⟩ = (some (.num 1), true) ∧
      (CacheManager.get 300 86400 ⟨1000, some (0, .ok (.num 1))⟩ = (some (.num 1), false) ∧
        CacheManager.get_stale 86400 ⟨1000, some (0, .ok (.num 1))⟩ = some (.num 1)) ∧
      (CacheManager.get 300 86400 ⟨100000, some (0, .ok (.num 1))⟩ = (none, false) ∧
        CacheManager.get_stale 86400 ⟨100000, some (0, .ok (.num 1))⟩ = none) ∧
      (CacheManager.get 300 86400 ⟨0, none⟩ = (none, false) ∧
        CacheManager.get_stale 86400 ⟨0, none⟩ = none) ∧
      (CacheManager.get 300 86400 ⟨100, some (0, .error .valueError)⟩ = (none, false) ∧
        CacheManager.get_stale 86400 ⟨100, some (0, .error .valueError)⟩ = none) :=
  ⟨(cache_aging_contract 300 86400 ⟨100, some (0, .ok (.num 1))⟩ (by norm_num)).1
      0 (.num 1) rfl (by norm_num),
   (cache_aging_contract 300 86400 ⟨1000, some (0, .ok (.num 1))⟩ (by norm_num)).2.1
      0 (.num 1) rfl (by norm_num) (by norm_num),
   (cache_aging_contract 300 86400 ⟨100000, some (0, .ok (.num 1))⟩ (by norm_num)).2.2.1
      0 (.num 1) rfl (by norm_num),
   (cache_aging_contract 300 86400 ⟨0, none⟩ (by norm_num)).2.2.2.1 rfl,
   (cache_aging_contract 300 86400 ⟨100, some (0, .error .valueError)⟩
      (by norm_num)).2.2.2.2 0 .valueError rfl⟩

/-- A 429 response carrying `Retry-After: -3` on every attempt: the header
parses to the truthy negative hint `-3`. -/
def opNegHint : ℕ → RetryOutcome PyErr JValue := fun _ =>
  fetchClassify ⟨429, some "-3", .error .valueError⟩

/-- C5 counterexample: a retryable failure on every attempt does NOT
guarantee `N + 1` invocations with the last failure re-raised. A 429
carrying the truthy negative hint `Retry-After: -3` makes the wrapper call
`time.sleep(min(-3, 60)) = time.sleep(-3)`, which raises `ValueError`
outside the `try`: under `retries = 3` the operation is invoked exactly
ONCE and the raised condition is the sleep `ValueError`, not the last
failure. -/
theorem retry_negative_hint_counterexample :
    opNegHint 0 = .retryableErr .retryableError (some (-3)) ∧
      (retry_with_backoff 3 1 2 60 opNegHint).calls = 1 ∧
      (retry_with_backoff 3 1 2 60 opNegHint).result = .error .sleepValueError ∧
      (1 : ℕ) ≠ 3 + 1 := by
  refine ⟨rfl, ?_, ?_, by omega⟩ <;>
    · have hc : (opNegHint 0).isCaught = true := rfl
      have hw : min (hintOrDelay (opNegHint 0) 1) 60 < 0 := by
        rw [show opNegHint 0 = .retryableErr .retryableError (some (-3)) from rfl]
        show min (if (-3 : ℚ) = 0 then 1 else -3) 60 < 0
        norm_num
      unfold retry_with_backoff
      rw [retryGo_succ_negWait hc hw]

/-- C5 (amended): provided the configured delay, backoff and max delay are
nonnegative and no failure carries a negative retry-after hint — so every
computed inter-attempt wait is nonnegative and `time.sleep` succeeds — an
operation failing with a caught (retryable) kind on every attempt under
`retries = N` is invoked exactly `N + 1` times and the final raised
condition is the last failure; an uncaught (non-retryable) failure at
attempt `j` propagates immediately with exactly `j + 1` invocations.
Without the proviso the wrapper can instead raise `ValueError` from a
negative `time.sleep` (see the counterexample). -/
theorem retry_invocation_counts (op : ℕ → RetryOutcome ε α) (N : ℕ) (d B M : ℚ)
    (hd : 0 ≤ d) (hB : 0 ≤ B) (hM : 0 ≤ M)
    (hhints : ∀ k e x, op k = .retryableErr e (some x) → 0 ≤ x) :
    ((∀ k, k ≤ N → (op k).isCaught = true) →
      (retry_with_backoff N d B M op).calls = N + 1 ∧
        (retry_with_backoff N d B M op).result = .error (.raised (op N))) ∧
    (∀ j e, j ≤ N → op j = .fatalErr e → (∀ k, k < j → (op k).isCaught = true) →
      (retry_with_backoff N d B M op).calls = j + 1 ∧
        (retry_with_backoff N d B M op).result = .error (.raised (.fatalErr e))) := by
  constructor
  · intro h
    have hx := retryGo_exhaust op B M hB hM hhints N 0 d hd
      (fun k _ hk2 => h k (by omega))
    rw [Nat.zero_add] at hx
    exact ⟨hx.2, hx.1⟩
  · intro j e hj hfat hcaught
    have hx := retryGo_fatal op B M hB hM hhints j N 0 d e hd hj
      (by rw [Nat.zero_add]; exact hfat)
      (fun i hi => by rw [Nat.zero_add]; exact hcaught i hi)
    exact ⟨hx.2, hx.1⟩

/-- An operation that fails with a caught kind on every attempt. -/
def opAlwaysFails : ℕ → RetryOutcome ℕ ℕ := fun k => .requestErr k

/-- An operation whose first attempt fails with a caught kind and whose
second raises an uncaught exception. -/
def opFatalSecond : ℕ → RetryOutcome ℕ ℕ :=
  fun k => if k = 0 then .requestErr 0 else .fatalErr 1

/-- Witness for the retry invocation counts: with `retries = 2` the
always-failing operation runs 3 times and re-raises its third failure; the
operation that raises an uncaught exception on its second attempt runs
exactly twice. -/
theorem retry_invocation_counts_witness :
    ((retry_with_backoff 2 1 2 60 opAlwaysFails).calls = 3 ∧
      (retry_with_backoff 2 1 2 60 opAlwaysFails).result
          = .error (.raised (opAlwaysFails 2))) ∧
    ((retry_with_backoff 2 1 2 60 opFatalSecond).calls = 2 ∧
      (retry_with_backoff 2 1 2 60 opFatalSecond).result
          = .error (.raised (.fatalErr 1))) :=
  ⟨(retry_invocation_counts opAlwaysFails 2 1 2 60 (by norm_num) (by norm_num)
      (by norm_num) (fun k e x hx => RetryOutcome.noConfusion hx)).1 (fun _ _ => rfl),
   (retry_invocation_counts opFatalSecond 2 1 2 60 (by norm_num) (by norm_num)
      (by norm_num)
      (fun k e x hx => by
        unfold opFatalSecond at hx
        split at hx <;> exact RetryOutcome.noConfusion hx)).2 1 1 (by omega) rfl
     (fun k hk => by
       have hk0 : k = 0 := by omega
       rw [hk0]
       rfl)⟩

/-- C6 (amended): every wait the wrapper actually performs between
consecutive attempts equals `min(hint_or_current_delay, M)`, where the
hint is used exactly when the failure carries a NONZERO `retry_after` (a
zero hint is falsy in Python and falls back to the current delay) and the
current-delay sequence obeys `d_0 = delay`, `d_(i+1) = min(d_i * B, M)`;
and when the computed wait at a retried attempt is negative (a truthy
negative hint), the wrapper performs no wait at all and instead raises
`ValueError` from `time.sleep`, terminating right after that attempt. -/
theorem retry_wait_schedule (op : ℕ → RetryOutcome ε α) (N : ℕ) (d B M : ℚ) :
    ((retry_with_backoff N d B M op).waits =
      (List.range ((retry_with_backoff N d B M op).calls - 1)).map
        (fun i => min (hintOrDelay (op i) (delaySeq B M d i)) M)) ∧
    (∀ j, j < N →
      (∀ k, k ≤ j → (op k).isCaught = true) →
      (∀ i, i < j → ¬ min (hintOrDelay (op i) (delaySeq B M d i)) M < 0) →
      min (hintOrDelay (op j) (delaySeq B M d j)) M < 0 →
      (retry_with_backoff N d B M op).result = .error .sleepValueError ∧
        (retry_with_backoff N d B M op).calls = j + 1) := by
  constructor
  · have h := retryGo_waits op B M N 0 d
    simpa using h
  · intro j hj hcaught hnneg hneg
    exact retryGo_sleepErr op B M j N 0 d hj
      (fun k hk => by rw [Nat.zero_add]; exact hcaught k hk)
      (fun i hi => by rw [Nat.zero_add]; exact hnneg i hi)
      (by rw [Nat.zero_add]; exact hneg)

/-- Witness for the wait schedule: the negative-hint operation makes the
wrapper raise the sleep `ValueError` right after its first invocation. -/
theorem retry_wait_schedule_witness :
    (retry_with_backoff 3 1 2 60 opNegHint).result = .error .sleepValueError ∧
      (retry_with_backoff 3 1 2 60 opNegHint).calls = 0 + 1 :=
  (retry_wait_schedule opNegHint 3 1 2 60).2 0 (by omega) (fun k _ => rfl)
    (fun i hi => absurd hi (by omega))
    (by
      show min (hintOrDelay (opNegHint 0) (delaySeq 2 60 1 0)) 60 < 0
      rw [show opNegHint 0 = .retryableErr .retryableError (some (-3)) from rfl]
      show min (if (-3 : ℚ) = 0 then 1 else -3) 60 < 0
      norm_num)

/-- A 429 response carrying the header `Retry-After: 0`, then a success:
the classification of the first response carries the hint `some 0`. -/
def opZeroHint : ℕ → RetryOutcome PyErr JValue := fun k =>
  if k = 0 then fetchClassify ⟨429, some "0", .error .valueError⟩
  else fetchClassify ⟨200, none, .ok (.arr [])⟩

/-- C6 counterexample: a rate-limit failure carrying the parsed hint `0`
does NOT make the wrapper wait `min(0, M) = 0`: the zero hint is falsy, so
the wait is the current delay 5, not 0. -/
theorem retry_zero_hint_counterexample :
    opZeroHint 0 = .retryableErr .retryableError (some 0) ∧
      (retry_with_backoff 1 5 2 60 opZeroHint).waits = [5] ∧
      ¬ ((5 : ℚ) = min 0 60) := by
  refine ⟨rfl, ?_, by norm_num⟩
  have hc : (opZeroHint 0).isCaught = true := rfl
  have hok : opZeroHint 1 = .ok (.arr []) := rfl
  have hw : ¬ min (hintOrDelay (opZeroHint 0) 5) 60 < 0 := by
    rw [show opZeroHint 0 = .retryableErr .retryableError (some 0) from rfl]
    show ¬ min (if (0 : ℚ) = 0 then 5 else 0) 60 < 0
    norm_num
  unfold retry_with_backoff
  rw [retryGo_succ_caught hc hw, retryGo_ok hok]
  show min (hintOrDelay (opZeroHint 0) 5) 60 :: [] = [5]
  have h0 : opZeroHint 0 = .retryableErr .retryableError (some 0) := rfl
  rw [h0]
  show min (if (0 : ℚ) = 0 then 5 else 0) 60 :: [] = [5]
  norm_num

/-- C7 (amended): whenever the normalizer returns (it can raise for a
truthy non-mapping `constraints` sub-object), it returns absent exactly
when the record lacks a truthy string id; and every returned entry's
partition is the record's own declared `type` when truthy, else the
supplied fallback. -/
theorem normalizer_id_gate_and_partition (data : List (String × JValue)) (fb : JValue)
    (r : Option Model) (h : Model.from_api_response data fb = .ok r) :
    (r = none ↔ hasValidIdB data = false) ∧
    (∀ m, r = some m → m.model_type = pyOr (dictGet data "type") fb) := by
  unfold Model.from_api_response at h
  unfold hasValidIdB
  cases hid : lookupJ data "id" with
  | none =>
      rw [hid] at h
      simp only at h ⊢
      obtain rfl : r = none := (Except.ok.inj h).symm
      simp
  | some v =>
      rw [hid] at h
      cases v with
      | str s =>
          simp only at h ⊢
          by_cases hs : s = ""
          · rw [if_pos hs] at h
            obtain rfl : r = none := (Except.ok.inj h).symm
            simp [hs]
          · rw [if_neg hs] at h
            cases hsc : pyOr (dictGet (specOf data) "constraints") (.obj []) with
            | obj ckvs =>
                rw [hsc] at h
                simp only at h
                constructor
                · constructor
                  · intro hr
                    rw [hr] at h
                    exact absurd (Except.ok.inj h) (by simp)
                  · intro hids
                    simp [hs] at hids
                · intro m hm
                  rw [hm] at h
                  rw [← Option.some.inj (Except.ok.inj h)]
            | null => rw [hsc] at h; simp only at h; exact absurd h (by simp)
            | bool b => rw [hsc] at h; simp only at h; exact absurd h (by simp)
            | num q => rw [hsc] at h; simp only at h; exact absurd h (by simp)
            | str s2 => rw [hsc] at h; simp only at h; exact absurd h (by simp)
            | arr ys => rw [hsc] at h; simp only at h; exact absurd h (by simp)
      | null =>
          simp only at h ⊢
          obtain rfl : r = none := (Except.ok.inj h).symm
          simp
      | bool b =>
          simp only at h ⊢
          obtain rfl : r = none := (Except.ok.inj h).symm
          simp
      | num q =>
          simp only at h ⊢
          obtain rfl : r = none := (Except.ok.inj h).symm
          simp
      | arr ys =>
          simp only at h ⊢
          obtain rfl : r = none := (Except.ok.inj h).symm
          simp
      | obj kvs =>
          simp only at h ⊢
          obtain rfl : r = none := (Except.ok.inj h).symm
          simp

/-- A record declaring its own partition. -/
def recOwnType : List (String × JValue) := [("id", .str "a"), ("type", .str "image")]

/-- The entry the normalizer produces for `recOwnType`. -/
def modelOwnType : Model :=
  ⟨"a", "a", .str "image", 32768, 7 / 10,
   ⟨false, false, false, false, false, false⟩, ⟨none, none⟩⟩

/-- Witness for the id gate and partition resolution: on a concrete record
with a declared partition the theorem applies and the produced entry keeps
that partition. -/
theorem normalizer_id_gate_and_partition_witness :
    ((some modelOwnType = none) ↔ hasValidIdB recOwnType = false) ∧
      (∀ m, some modelOwnType = some m →
        m.model_type = pyOr (dictGet recOwnType "type") (.str "text")) :=
  normalizer_id_gate_and_partition recOwnType (.str "text") (some modelOwnType) rfl

/-- Shared helper: any list the parser returns is sorted by id. -/
theorem parse_models_ok_sorted (raw : JValue) (mt : ModelType) (l : List Model)
    (h : parse_models raw mt = .ok l) : l.Sorted byId := by
  cases hit : iterElems raw with
  | error e => rw [parse_models_iterErr hit] at h; exact absurd h (by simp)
  | ok xs =>
      rw [parse_models_iterOk hit] at h
      cases hp : parseLoop (if mt = ModelType.all then "text" else mt.value) xs with
      | error e => rw [hp] at h; exact Except.noConfusion h
      | ok l0 =>
          rw [hp] at h
          have h2 := Except.ok.inj h
          rw [← h2]
          exact List.sorted_insertionSort byId l0

/-- C9: every list the catalog parser returns is sorted by id ascending,
and the output is a function of the resolved raw record list alone (the
sort is deterministic). -/
theorem parse_models_sorted_by_id (raw : JValue) (mt : ModelType) (l : List Model)
    (h : parse_models raw mt = .ok l) :
    l.Sorted byId ∧ ∀ l2, parse_models raw mt = .ok l2 → l2 = l := by
  refine ⟨parse_models_ok_sorted raw mt l h, ?_⟩
  intro l2 h2
  rw [h] at h2
  exact (Except.ok.inj h2).symm

/-- Witness for the sortedness of parsed results on a concrete unsorted
input: the two records come back ordered `a`, `b`. -/
theorem parse_models_sorted_by_id_witness :
    parse_models (.arr [.obj [("id", .str "b")], .obj [("id", .str "a")]])
        ModelType.text =
      .ok [⟨"a", "a", .str "text", 32768, 7 / 10,
            ⟨false, false, false, false, false, false⟩, ⟨none, none⟩⟩,
           ⟨"b", "b", .str "text", 32768, 7 / 10,
            ⟨false, false, false, false, false, false⟩, ⟨none, none⟩⟩] ∧
      ([⟨"a", "a", .str "text", 32768, 7 / 10,
         ⟨false, false, false, false, false, false⟩, ⟨none, none⟩⟩,
        ⟨"b", "b", .str "text", 32768, 7 / 10,
         ⟨false, false, false, false, false, false⟩, ⟨none, none⟩⟩] : List Model).Sorted
        byId :=
  ⟨rfl,
   (parse_models_sorted_by_id
      (.arr [.obj [("id", .str "b")], .obj [("id", .str "a")]]) ModelType.text _ rfl).1⟩

/-- C3 (amended): the parser sorts by id but does NOT deduplicate — the
returned list is a permutation of the one-entry-per-parseable-record list
produced by the parse loop, so entries with equal ids are all retained. -/
theorem parse_models_sorted_retains_duplicates (xs : List JValue) (mt : ModelType)
    (l : List Model) (h : parse_models (.arr xs) mt = .ok l) :
    l.Sorted byId ∧
      ∃ l0, parseLoop (if mt = ModelType.all then "text" else mt.value) xs = .ok l0 ∧
        l.Perm l0 := by
  refine ⟨parse_models_ok_sorted (.arr xs) mt l h, ?_⟩
  rw [parse_models_iterOk (show iterElems (JValue.arr xs) = Except.ok xs from rfl)] at h
  cases hp : parseLoop (if mt = ModelType.all then "text" else mt.value) xs with
  | error e => rw [hp] at h; exact Except.noConfusion h
  | ok l0 =>
      rw [hp] at h
      have h2 := Except.ok.inj h
      exact ⟨l0, rfl, by rw [← h2]; exact List.perm_insertionSort byId l0⟩

/-- Witness for the no-dedup permutation theorem on a two-record input
with distinct ids. -/
theorem parse_models_sorted_retains_duplicates_witness :
    parse_models (.arr [.obj [("id", .str "b")], .obj [("id", .str "c")]])
        ModelType.text =
      .ok [⟨"b", "b", .str "text", 32768, 7 / 10,
            ⟨false, false, false, false, false, false⟩, ⟨none, none⟩⟩,
           ⟨"c", "c", .str "text", 32768, 7 / 10,
            ⟨false, false, false, false, false, false⟩, ⟨none, none⟩⟩] ∧
      ([⟨"b", "b", .str "text", 32768, 7 / 10,
         ⟨false, false, false, false, false, false⟩, ⟨none, none⟩⟩,
        ⟨"c", "c", .str "text", 32768, 7 / 10,
         ⟨false, false, false, false, false, false⟩, ⟨none, none⟩⟩] : List Model).Sorted
        byId :=
  ⟨rfl,
   (parse_models_sorted_retains_duplicates
      [.obj [("id", .str "b")], .obj [("id", .str "c")]] ModelType.text _ rfl).1⟩

/-- C10: the fresh-cache short circuit fires only on a truthy cached
value. If the cache reports a fresh hit whose stored data is falsy (an
empty list, for example), `fetch_models` does not return from the cache
check: it runs exactly the live-fetch path. -/
theorem fresh_falsy_cache_no_shortcircuit (env : FetchEnv) (mt : ModelType)
    (c : CacheEnv) (d : JValue) (hc : env.cache = some c)
    (hget : CacheManager.get env.fresh_ttl env.stale_ttl c = (some d, true))
    (hd : truthy d = false) :
    fetch_models env mt = fetchLive env mt := by
  unfold fetch_models
  rw [hc]
  simp only
  rw [hget]
  simp [hd]

/-- A fetch environment whose cache holds a FRESH record whose data is the
empty list, while the live API has one model available. -/
def envFreshEmpty : FetchEnv :=
  ⟨300, 86400, some ⟨0, some (0, .ok (.arr []))⟩,
   fun _ => .ok (.obj [("data", .arr [.obj [("id", .str "a")]])])⟩

/-- Witness for the falsy-fresh-hit theorem: with a fresh cached empty
list the call takes the live path and returns the live model, not the
cached empty list. -/
theorem fresh_falsy_cache_no_shortcircuit_witness :
    fetch_models envFreshEmpty ModelType.text = fetchLive envFreshEmpty ModelType.text ∧
      fetch_models envFreshEmpty ModelType.text =
        .ok [⟨"a", "a", .str "text", 32768, 7 / 10,
              ⟨false, false, false, false, false, false⟩, ⟨none, none⟩⟩] := by
  have hget : CacheManager.get (300 : ℚ) 86400 ⟨0, some (0, .ok (.arr []))⟩
      = (some (.arr []), true) :=
    cacheGet_fresh 300 86400 ⟨0, some (0, .ok (.arr []))⟩ 0 (.arr []) rfl (by norm_num)
  have hmain := fresh_falsy_cache_no_shortcircuit envFreshEmpty ModelType.text
    ⟨0, some (0, .ok (.arr []))⟩ (.arr []) rfl hget rfl
  have hlive : fetchLive envFreshEmpty ModelType.text =
      .ok [⟨"a", "a", .str "text", 32768, 7 / 10,
            ⟨false, false, false, false, false, false⟩, ⟨none, none⟩⟩] := rfl
  exact ⟨hmain, hmain.trans hlive⟩

end VeniceSync
